import Mathlib

/-!
Verification of the `archive-uninstall` tool: a shallow embedding of its
removal decision engine, verification callbacks, directory tracker and
main control flow, together with theorems about their behavior.

The embedding models the target directory as an explicit filesystem value
threaded through every operation, Go errors as `Option`/`Except` values,
and the SHA-256 digest used by verification as a full executable
implementation over byte lists.
-/

namespace ArchiveUninstall

/-! ## SHA-256 (model of Go `crypto/sha256.Sum256`) -/

/-- Byte sequences: file and archive-entry contents. -/
abbrev Bytes := List Nat

/-- Truncate to a 32-bit word, as Go `uint32` arithmetic does. -/
def w32 (n : Nat) : Nat := n % 4294967296

/-- Rotate a 32-bit word right by `n` bits (`0 < n < 32`). -/
def rotr (x n : Nat) : Nat := w32 ((x >>> n) ||| (x <<< (32 - n)))

/-- SHA-256 `Ch` function. -/
def sha256ch (x y z : Nat) : Nat := (x &&& y) ^^^ ((x ^^^ 4294967295) &&& z)

/-- SHA-256 `Maj` function. -/
def sha256maj (x y z : Nat) : Nat := (x &&& y) ^^^ (x &&& z) ^^^ (y &&& z)

/-- SHA-256 big Sigma0. -/
def bigSigma0 (x : Nat) : Nat := rotr x 2 ^^^ rotr x 13 ^^^ rotr x 22

/-- SHA-256 big Sigma1. -/
def bigSigma1 (x : Nat) : Nat := rotr x 6 ^^^ rotr x 11 ^^^ rotr x 25

/-- SHA-256 small sigma0. -/
def smallSigma0 (x : Nat) : Nat := rotr x 7 ^^^ rotr x 18 ^^^ (x >>> 3)

/-- SHA-256 small sigma1. -/
def smallSigma1 (x : Nat) : Nat := rotr x 17 ^^^ rotr x 19 ^^^ (x >>> 10)

/-- The 64 SHA-256 round constants (FIPS 180-4, written in decimal). -/
def sha256K : List Nat :=
  [1116352408, 1899447441, 3049323471, 3921009573, 961987163,
   1508970993, 2453635748, 2870763221, 3624381080, 310598401,
   607225278, 1426881987, 1925078388, 2162078206, 2614888103,
   3248222580, 3835390401, 4022224774, 264347078, 604807628,
   770255983, 1249150122, 1555081692, 1996064986, 2554220882,
   2821834349, 2952996808, 3210313671, 3336571891, 3584528711,
   113926993, 338241895, 666307205, 773529912, 1294757372,
   1396182291, 1695183700, 1986661051, 2177026350, 2456956037,
   2730485921, 2820302411, 3259730800, 3345764771, 3516065817,
   3600352804, 4094571909, 275423344, 430227734, 506948616,
   659060556, 883997877, 958139571, 1322822218, 1537002063,
   1747873779, 1955562222, 2024104815, 2227730452, 2361852424,
   2428436474, 2756734187, 3204031479, 3329325298]

/-- The eight SHA-256 initial hash words (FIPS 180-4, in decimal). -/
def sha256H0 : List Nat :=
  [1779033703, 3144134277, 1013904242, 2773480762,
   1359893119, 2600822924, 528734635, 1541459225]

/-- `n` bytes of `v` in big-endian order. -/
def beBytes : Nat → Nat → Bytes
  | 0, _ => []
  | n + 1, v => beBytes n (v / 256) ++ [v % 256]

/-- Group bytes into big-endian 32-bit words. -/
def beWords : Bytes → List Nat
  | a :: b :: c :: d :: rest => (a * 16777216 + b * 65536 + c * 256 + d) :: beWords rest
  | _ => []

/-- SHA-256 padding: append `0x80`, zero bytes, and the 64-bit big-endian
bit length, reaching a multiple of 64 bytes. -/
def sha256pad (msg : Bytes) : Bytes :=
  let len := msg.length
  let k := (119 - len % 64) % 64
  msg ++ [128] ++ List.replicate k 0 ++ beBytes 8 (8 * len)

/-- Extend a 16-word block by `n` further schedule words. -/
def extendW : Nat → List Nat → List Nat
  | 0, w => w
  | n + 1, w =>
    let t := w.length
    let x := w32 (smallSigma1 (w.getD (t - 2) 0) + w.getD (t - 7) 0 +
                  smallSigma0 (w.getD (t - 15) 0) + w.getD (t - 16) 0)
    extendW n (w ++ [x])

/-- The eight working variables of the SHA-256 compression function. -/
structure Hash8 where
  a : Nat
  b : Nat
  c : Nat
  d : Nat
  e : Nat
  f : Nat
  g : Nat
  h : Nat
deriving DecidableEq, Repr

/-- One SHA-256 compression round; `wk` is the pair of schedule word and
round constant. -/
def sha256round (s : Hash8) (wk : Nat × Nat) : Hash8 :=
  let t1 := w32 (s.h + bigSigma1 s.e + sha256ch s.e s.f s.g + wk.2 + wk.1)
  let t2 := w32 (bigSigma0 s.a + sha256maj s.a s.b s.c)
  ⟨w32 (t1 + t2), s.a, s.b, s.c, w32 (s.d + t1), s.e, s.f, s.g⟩

/-- Compress one 16-word block into the running hash state. -/
def processBlock (s : Hash8) (block : List Nat) : Hash8 :=
  let w := extendW 48 block
  let r := (w.zip sha256K).foldl sha256round s
  ⟨w32 (s.a + r.a), w32 (s.b + r.b), w32 (s.c + r.c), w32 (s.d + r.d),
   w32 (s.e + r.e), w32 (s.f + r.f), w32 (s.g + r.g), w32 (s.h + r.h)⟩

/-- Compress all 16-word blocks of a padded message. -/
def processBlocks (s : Hash8) : List Nat → Hash8
  | w0 :: w1 :: w2 :: w3 :: w4 :: w5 :: w6 :: w7 ::
    w8 :: w9 :: w10 :: w11 :: w12 :: w13 :: w14 :: w15 :: rest =>
    processBlocks
      (processBlock s [w0, w1, w2, w3, w4, w5, w6, w7, w8, w9, w10, w11, w12, w13, w14, w15]) rest
  | _ => s

/-- SHA-256 digest of a byte sequence, as 32 bytes.  Model of Go
`sha256.Sum256`. -/
def sha256 (msg : Bytes) : Bytes :=
  let s0 : Hash8 := ⟨sha256H0.getD 0 0, sha256H0.getD 1 0, sha256H0.getD 2 0, sha256H0.getD 3 0,
                     sha256H0.getD 4 0, sha256H0.getD 5 0, sha256H0.getD 6 0, sha256H0.getD 7 0⟩
  let s := processBlocks s0 (beWords (sha256pad msg))
  beBytes 4 s.a ++ beBytes 4 s.b ++ beBytes 4 s.c ++ beBytes 4 s.d ++
  beBytes 4 s.e ++ beBytes 4 s.f ++ beBytes 4 s.g ++ beBytes 4 s.h

/-! ## Filesystem model

The target directory is modelled as an explicit value: an association list
of file paths to their observable open/read behavior, plus a list of
directory paths.  Go's filesystem calls become functions on this value. -/

/-- Result of fully reading a stream (`ioutil.ReadAll`): either the
contents or an I/O error. -/
inductive ReadResult
  | ok (content : Bytes)
  | ioError
deriving DecidableEq, Repr

/-- Observable behavior of a file present in the target directory. -/
inductive FileState
  /-- `os.Open` succeeds and `ReadAll` yields `content`. -/
  | readable (content : Bytes)
  /-- `os.Open` succeeds but reading fails with an I/O error. -/
  | unreadable
  /-- The file exists but `os.Open` fails (e.g. permission denied). -/
  | unopenable
deriving DecidableEq, Repr

/-- The target-directory filesystem: files (with their behavior) and
directories, both keyed by full path. -/
structure FS where
  files : List (String × FileState)
  dirs : List String
deriving DecidableEq, Repr

/-- Error distinguishing why `os.Open` failed. -/
inductive OpenError
  | notExist
  | permission
deriving DecidableEq, Repr

/-- Model of `os.Open`: the file's read behavior on success, an error
(non-existence or e.g. a permission failure) otherwise. -/
def osOpen (fs : FS) (p : String) : Except OpenError ReadResult :=
  match fs.files.lookup p with
  | some (.readable c) => .ok (.ok c)
  | some .unreadable => .ok .ioError
  | some .unopenable => .error .permission
  | none => .error .notExist

/-- Whether a path exists in the filesystem, as a file or a directory. -/
def pathExists (fs : FS) (p : String) : Bool :=
  (fs.files.lookup p).isSome || fs.dirs.contains p

/-- Prefix test on character sequences. -/
def charsIsPrefixOf : List Char → List Char → Bool
  | [], _ => true
  | _ :: _, [] => false
  | a :: as, b :: bs => a == b && charsIsPrefixOf as bs

/-- Whether `q` lies strictly below directory path `p`. -/
def isUnder (p q : String) : Bool := charsIsPrefixOf (p ++ "/").data q.data

/-- Number of filesystem entries strictly below path `p`. -/
def countUnder (fs : FS) (p : String) : Nat :=
  (fs.files.filter (fun e => isUnder p e.1)).length + (fs.dirs.filter (isUnder p)).length

/-- Error from `os.Remove`, distinguishing the `os.IsNotExist` case the
sweep treats as non-fatal from other failures. -/
inductive RemoveError
  | notExist
  | notEmpty
deriving DecidableEq, Repr

/-- Model of `os.Remove`: deletes a file, or an empty directory; removing
a non-empty directory or a non-existent path fails. -/
def osRemove (fs : FS) (p : String) : Except RemoveError FS :=
  if (fs.files.lookup p).isSome then
    .ok ⟨fs.files.filter (fun e => e.1 != p), fs.dirs⟩
  else if fs.dirs.contains p then
    if countUnder fs p == 0 then
      .ok ⟨fs.files, fs.dirs.filter (fun d => d != p)⟩
    else
      .error .notEmpty
  else
    .error .notExist

/-- Model of `filepath.Walk`'s visit count as used by
`removeEmptyDirectories`: the walk function increments a counter on every
visit and swallows errors, so a walk of an existing path counts the path
itself plus everything below it, and a walk of a missing path invokes the
function exactly once (with the lstat error) and still counts 1. -/
def walkCount (fs : FS) (p : String) : Nat :=
  if pathExists fs p then 1 + countUnder fs p else 1

/-- Model of `filepath.Join` for clean relative arguments: join with a
single separator. -/
def filepathJoin (a b : String) : String := a ++ "/" ++ b

/-! ## Removal decision engine -/

/-- Errors that a callback can propagate to `main`, which passes them to
`app.FatalIfError`. -/
inductive GoErr
  /-- An I/O failure while reading content during verification. -/
  | verifyRead
  /-- `os.Remove` of a file failed. -/
  | removeFailed
  /-- `os.Remove` of a directory failed other than with `IsNotExist`. -/
  | dirRemoveFailed
deriving DecidableEq, Repr

/-- Reason strings attached to a "Removed: No" report line. -/
inductive SkipReason
  | none
  | verificationFailure
  | fileNotFound
  | dirNotFound
deriving DecidableEq, Repr

/-- Per-file outcome assembled by `removeFromTargetDir`: the resolved
path, the `Exists` caption, whether the verification callback accepted
the file, the `Removed` caption, and the reason string. -/
structure RemovalOutcome where
  path : String
  existedInTarget : Bool
  verified : Bool
  removed : Bool
  skipReason : SkipReason
deriving DecidableEq, Repr

/-- The `verifyCallback` type: fed with the opened target file's read
behavior, returns verified or an error. -/
abbrev VerifyCallback := ReadResult → Except GoErr Bool

/-- Model of `removeFromTargetDir`: joins the target directory name and
entry name, opens the path discarding the open error (`file, _ :=
os.Open(path)`), and if the open produced a handle runs the verification
callback (propagating its error), removing the file unless dry-run is
enabled.  Returns the updated filesystem, the outcome record, and the
propagated error if any. -/
def removeFromTargetDir (dryRun : Bool) (fs : FS) (targetDirName filename : String)
    (verifyFunc : VerifyCallback) : FS × RemovalOutcome × Option GoErr :=
  let path := filepathJoin targetDirName filename
  let file := (osOpen fs path).toOption
  match file with
  | some handle =>
    match verifyFunc handle with
    | .error e => (fs, ⟨path, true, false, false, .none⟩, some e)
    | .ok verified =>
      if verified then
        if !dryRun then
          match osRemove fs path with
          | .error _ => (fs, ⟨path, true, true, false, .none⟩, some .removeFailed)
          | .ok fs' => (fs', ⟨path, true, true, true, .none⟩, none)
        else
          (fs, ⟨path, true, true, false, .none⟩, none)
      else
        (fs, ⟨path, true, false, false, .verificationFailure⟩, none)
  | none => (fs, ⟨path, false, false, false, .fileNotFound⟩, none)

/-- The verification closure built by `tarCallback`: with `--verify` it
reads the target file fully, hashes it, reads the archive entry fully,
hashes it, and compares the digests, propagating any read error; without
`--verify` it returns true without touching either stream. -/
def tarVerifyFunc (verify : Bool) (archiveRead : ReadResult) : VerifyCallback :=
  fun target =>
    if verify then
      match target with
      | .ioError => .error .verifyRead
      | .ok tdata =>
        match archiveRead with
        | .ioError => .error .verifyRead
        | .ok adata => .ok (sha256 tdata == sha256 adata)
    else
      .ok true

/-- The verification closure built by `zipCallback`: as for tar, except
the archive entry must first be opened (`file.Open`), whose failure is
also propagated.  `entryOpen` is `none` when that open fails. -/
def zipVerifyFunc (verify : Bool) (entryOpen : Option ReadResult) : VerifyCallback :=
  fun target =>
    if verify then
      match target with
      | .ioError => .error .verifyRead
      | .ok tdata =>
        match entryOpen with
        | none => .error .verifyRead
        | some .ioError => .error .verifyRead
        | some (.ok adata) => .ok (sha256 tdata == sha256 adata)
    else
      .ok true

/-! ## Archive pass -/

/-- One archive entry as yielded to the walk callbacks: a directory
marker, or a file with the result of reading its content stream. -/
inductive ArchiveEntry
  | dir (name : String)
  | file (name : String) (archiveRead : ReadResult)
deriving DecidableEq, Repr

/-- Mutable state of the pass: the target filesystem, the global
`directories` accumulator, and the outcomes reported so far. -/
structure PassState where
  fs : FS
  directories : List String
  outcomes : List RemovalOutcome
deriving DecidableEq, Repr

/-- Model of `tarCallback`: a directory entry is only recorded
(`addDirectory`); a file entry goes through `removeFromTargetDir` with
the tar verification closure.  The outcome is recorded when no error is
returned. -/
def tarCallback (verify dryRun : Bool) (targetDirName : String) (st : PassState)
    (e : ArchiveEntry) : PassState × Option GoErr :=
  match e with
  | .dir d => (⟨st.fs, st.directories ++ [d], st.outcomes⟩, none)
  | .file name aread =>
    match removeFromTargetDir dryRun st.fs targetDirName name (tarVerifyFunc verify aread) with
    | (fs', out, none) => (⟨fs', st.directories, st.outcomes ++ [out]⟩, none)
    | (fs', _, some err) => (⟨fs', st.directories, st.outcomes⟩, some err)

/-- Modelled from the spec: the archive walkers (`archive.WalkTar` and
friends, from the external `archive` package whose source is not in this
repository) drive the callback over the entries in order and stop at the
first error, propagating it to the caller. -/
def walkArchive (verify dryRun : Bool) (targetDirName : String) :
    PassState → List ArchiveEntry → PassState × Option GoErr
  | st, [] => (st, none)
  | st, e :: es =>
    match tarCallback verify dryRun targetDirName st e with
    | (st', none) => walkArchive verify dryRun targetDirName st' es
    | (st', some err) => (st', some err)

/-! ## Directory sweep -/

/-- Per-directory outcome of the sweep: the resolved path and the
`Exists`/`Empty`/`Removed` captions with the reason string. -/
structure DirOutcome where
  path : String
  dirExists : Bool
  empty : Bool
  removed : Bool
  skipReason : SkipReason
deriving DecidableEq, Repr

/-- Lexicographic comparison of character sequences, as Go's `<` on
strings compares bytes (for UTF-8 text, byte order and character order
agree). -/
def goCharsLt : List Char → List Char → Bool
  | [], [] => false
  | [], _ :: _ => true
  | _ :: _, [] => false
  | a :: as, b :: bs =>
    if a.toNat < b.toNat then true
    else if b.toNat < a.toNat then false
    else goCharsLt as bs

/-- Go's `a < b` on strings. -/
def goStringLt (a b : String) : Bool := goCharsLt a.data b.data

/-- The comparison under which the sweep's processing order is sorted:
`a` may precede `b` when `b < a` fails, i.e. `a ≥ b` (descending). -/
def goStringGe (a b : String) : Prop := goStringLt a b = false

instance goStringGeDecidable : DecidableRel goStringGe := by
  unfold goStringGe
  infer_instance

/-- The sort performed by `removeEmptyDirectories` via
`sort.Sort(reverseStringSlice(directories))`: `Less(i, j)` is
`p[j] < p[i]`, i.e. descending lexicographic order of the raw strings.
Duplicate recorded paths are equal strings, so the descending reordering
is unique as a list and any correct sort produces this value. -/
def reverseStringSliceSort (l : List String) : List String :=
  List.insertionSort goStringGe l

/-- Depth of a relative path: number of separators in it. -/
def pathDepth (s : String) : Nat := (s.toList.filter (fun c => c = '/')).length

/-- One iteration of the loop body of `removeEmptyDirectories`: resolve
the recorded path, count the walk's visits, and only when the count is
exactly 1 (and not in dry-run mode) attempt `os.Remove`, treating
`IsNotExist` as a soft "directory does not found" outcome and any other
removal failure as fatal (`app.FatalIfError`). -/
def sweepDir (dryRun : Bool) (fs : FS) (targetDirName d : String) :
    FS × DirOutcome × Option GoErr :=
  let path := filepathJoin targetDirName d
  let count := walkCount fs path
  if count == 1 then
    if !dryRun then
      match osRemove fs path with
      | .ok fs' => (fs', ⟨path, true, true, true, .none⟩, none)
      | .error .notExist => (fs, ⟨path, false, true, false, .dirNotFound⟩, none)
      | .error .notEmpty => (fs, ⟨path, true, true, false, .none⟩, some .dirRemoveFailed)
    else
      (fs, ⟨path, true, true, false, .none⟩, none)
  else
    (fs, ⟨path, true, false, false, .none⟩, none)

/-- The loop of `removeEmptyDirectories` over the sorted paths; a fatal
removal error terminates the sweep (the process exits). -/
def sweepLoop (dryRun : Bool) (targetDirName : String) :
    FS → List String → FS × List DirOutcome × Option GoErr
  | fs, [] => (fs, [], none)
  | fs, d :: ds =>
    match sweepDir dryRun fs targetDirName d with
    | (fs', _, some e) => (fs', [], some e)
    | (fs', out, none) =>
      let r := sweepLoop dryRun targetDirName fs' ds
      (r.1, out :: r.2.1, r.2.2)

/-- Model of `removeEmptyDirectories`: sort the recorded directories in
descending lexicographic order, then run the sweep loop. -/
def removeEmptyDirectories (dryRun : Bool) (targetDirName : String) (fs : FS)
    (directories : List String) : FS × List DirOutcome × Option GoErr :=
  sweepLoop dryRun targetDirName fs (reverseStringSliceSort directories)

/-! ## Main control flow -/

/-- Result of a whole run: final filesystem, per-file outcomes,
per-directory outcomes, and the fatal error if one occurred. -/
structure RunResult where
  fs : FS
  outcomes : List RemovalOutcome
  dirOutcomes : List DirOutcome
  err : Option GoErr
deriving DecidableEq, Repr

/-- Model of `main`: walk the archive once; a walk error is fatal
(`app.FatalIfError` exits before any sweep); otherwise run
`removeEmptyDirectories` exactly when `--remove-dirs` is set. -/
def main (verify dryRun removeDirs : Bool) (targetDirName : String) (fs : FS)
    (entries : List ArchiveEntry) : RunResult :=
  let r := walkArchive verify dryRun targetDirName ⟨fs, [], []⟩ entries
  match r.2 with
  | some e => ⟨r.1.fs, r.1.outcomes, [], some e⟩
  | none =>
    if removeDirs then
      let s := removeEmptyDirectories dryRun targetDirName r.1.fs r.1.directories
      ⟨s.1, r.1.outcomes, s.2.1, s.2.2⟩
    else
      ⟨r.1.fs, r.1.outcomes, [], none⟩

/-- A small example target-directory filesystem used to evaluate the
theorems on concrete inputs: a readable file, an unreadable one, an
unopenable one, an empty directory and a non-empty one. -/
def sampleFS : FS :=
  ⟨[("t/f", .readable [1]), ("t/g", .unreadable), ("t/h", .unopenable),
    ("t/e/x", .readable [2])], ["t/d", "t/e"]⟩

/-! ## Order properties of the Go string comparison -/

theorem goCharsLt_asymm : ∀ a b, goCharsLt a b = true → goCharsLt b a = false
  | [], [], h => by simp [goCharsLt] at h
  | [], _ :: _, _ => by simp [goCharsLt]
  | _ :: _, [], h => by simp [goCharsLt] at h
  | a :: as, b :: bs, h => by
    simp only [goCharsLt] at h ⊢
    by_cases h1 : a.toNat < b.toNat
    · have h2 : ¬ b.toNat < a.toNat := by omega
      simp [h1, h2]
    · by_cases h2 : b.toNat < a.toNat
      · simp [h1, h2] at h
      · simp [h1, h2] at h ⊢
        exact goCharsLt_asymm as bs h

theorem goCharsLt_cotrans :
    ∀ a b c, goCharsLt a c = true → goCharsLt a b = true ∨ goCharsLt b c = true
  | [], b, c :: cs, _ => by
    cases b with
    | nil => right; simp [goCharsLt]
    | cons x xs => left; simp [goCharsLt]
  | [], _, [], h => by simp [goCharsLt] at h
  | _ :: _, _, [], h => by simp [goCharsLt] at h
  | a :: as, b, c :: cs, h => by
    cases b with
    | nil => right; simp [goCharsLt]
    | cons x xs =>
      simp only [goCharsLt] at h ⊢
      by_cases hac : a.toNat < c.toNat
      · by_cases hax : a.toNat < x.toNat
        · left; simp [hax]
        · right
          have hxc : x.toNat < c.toNat := by omega
          simp [hxc]
      · by_cases hca : c.toNat < a.toNat
        · simp [hac, hca] at h
        · simp [hac, hca] at h
          by_cases hax : a.toNat < x.toNat
          · left; simp [hax]
          · by_cases hxa : x.toNat < a.toNat
            · right
              have hxc : x.toNat < c.toNat := by omega
              simp [hxc]
            · rcases goCharsLt_cotrans as xs cs h with h1 | h1
              · left; simp [hax, hxa, h1]
              · right
                have h2 : ¬ x.toNat < c.toNat := by omega
                have h3 : ¬ c.toNat < x.toNat := by omega
                simp [h2, h3, h1]

instance goStringGeTotal : IsTotal String goStringGe := by
  constructor
  intro a b
  unfold goStringGe goStringLt
  by_cases h : goCharsLt a.data b.data = true
  · right; exact goCharsLt_asymm _ _ h
  · left; simpa using h

instance goStringGeTrans : IsTrans String goStringGe := by
  constructor
  intro a b c hab hbc
  unfold goStringGe goStringLt at hab hbc ⊢
  by_cases h : goCharsLt a.data c.data = true
  · rcases goCharsLt_cotrans a.data b.data c.data h with h1 | h1
    · rw [hab] at h1; cases h1
    · rw [hbc] at h1; cases h1
  · simpa using h

/-! ## Helper lemmas about the filesystem operations -/

theorem osOpen_some_lookup (fs : FS) (p : String) (rr : ReadResult)
    (h : (osOpen fs p).toOption = some rr) : (fs.files.lookup p).isSome = true := by
  cases hl : fs.files.lookup p with
  | none => simp [osOpen, hl, Except.toOption] at h
  | some fstate => simp

theorem osRemove_of_lookup_isSome (fs : FS) (p : String)
    (h : (fs.files.lookup p).isSome = true) :
    osRemove fs p = .ok ⟨fs.files.filter (fun e => e.1 != p), fs.dirs⟩ := by
  simp [osRemove, h]

/-! ## Claim theorems -/

/-- C1: a file's removal outcome has `removed = true` only if opening the
resolved target path succeeded, the verification callback accepted the
opened file (trivially so when `--verify` is off), and dry-run mode is
off; moreover with `--verify` a target file whose SHA-256 digest differs
from the archive entry's digest is never removed — the filesystem is
returned unchanged with a verification-failure outcome — regardless of
the dry-run state. -/
theorem removed_flag_invariant :
    (∀ (dryRun : Bool) (fs : FS) (tdir name : String) (vf : VerifyCallback),
      (removeFromTargetDir dryRun fs tdir name vf).2.1.removed = true →
        (osOpen fs (filepathJoin tdir name)).toOption.isSome = true
        ∧ (∀ rr, (osOpen fs (filepathJoin tdir name)).toOption = some rr → vf rr = .ok true)
        ∧ dryRun = false)
  ∧ (∀ (dryRun : Bool) (fs : FS) (tdir name : String) (tdata adata : Bytes),
      (osOpen fs (filepathJoin tdir name)).toOption = some (.ok tdata) →
      sha256 tdata ≠ sha256 adata →
      (removeFromTargetDir dryRun fs tdir name (tarVerifyFunc true (.ok adata))).1 = fs
      ∧ (removeFromTargetDir dryRun fs tdir name (tarVerifyFunc true (.ok adata))).2.1.removed = false
      ∧ (removeFromTargetDir dryRun fs tdir name
          (tarVerifyFunc true (.ok adata))).2.1.skipReason = .verificationFailure) := by
  constructor
  · intro dryRun fs tdir name vf h
    cases hfile : (osOpen fs (filepathJoin tdir name)).toOption with
    | none => simp [removeFromTargetDir, hfile] at h
    | some rr =>
      cases hv : vf rr with
      | error e => simp [removeFromTargetDir, hfile, hv] at h
      | ok verified =>
        cases verified with
        | false => simp [removeFromTargetDir, hfile, hv] at h
        | true =>
          cases dryRun with
          | true => simp [removeFromTargetDir, hfile, hv] at h
          | false =>
            refine ⟨by simp, ?_, rfl⟩
            intro rr' hrr'
            cases hrr'
            exact hv
  · intro dryRun fs tdir name tdata adata hopen hne
    have hbeq : (sha256 tdata == sha256 adata) = false := by simpa using hne
    simp [removeFromTargetDir, hopen, tarVerifyFunc, hbeq]

set_option maxRecDepth 16384 in
/-- C1 witness: on the sample filesystem, a removed file satisfies the
invariant's conditions, and a digest mismatch leaves everything alone. -/
theorem removed_flag_invariant_witness :
    ((removeFromTargetDir false sampleFS "t" "f" (tarVerifyFunc false .ioError)).2.1.removed = true
     ∧ (osOpen sampleFS (filepathJoin "t" "f")).toOption.isSome = true)
    ∧ (osOpen sampleFS (filepathJoin "t" "f")).toOption = some (.ok [1])
    ∧ sha256 [1] ≠ sha256 []
    ∧ (removeFromTargetDir true sampleFS "t" "f" (tarVerifyFunc true (.ok []))).1 = sampleFS
    ∧ (removeFromTargetDir true sampleFS "t" "f"
        (tarVerifyFunc true (.ok []))).2.1.removed = false := by
  have h1 : (removeFromTargetDir false sampleFS "t" "f"
      (tarVerifyFunc false .ioError)).2.1.removed = true := by decide
  have hopen : (osOpen sampleFS (filepathJoin "t" "f")).toOption = some (.ok [1]) := by decide
  have hne : sha256 [1] ≠ sha256 [] := by decide
  have h2 := (removed_flag_invariant.1 false sampleFS "t" "f" (tarVerifyFunc false .ioError) h1).1
  have h3 := removed_flag_invariant.2 true sampleFS "t" "f" [1] [] hopen hne
  exact ⟨⟨h1, h2⟩, hopen, hne, h3.1, h3.2.1⟩

/-- C2: with `--verify`, both the tar and the zip verification callbacks
return true exactly when the SHA-256 digest of the target file's full
contents equals the SHA-256 digest of the archive entry's full contents;
without `--verify` they return true whatever the streams would yield —
including streams whose read would fail — so no content is consulted. -/
theorem verify_callback_digest_equality :
    (∀ (tdata adata : Bytes),
      tarVerifyFunc true (.ok adata) (.ok tdata) = .ok (sha256 tdata == sha256 adata)
      ∧ (tarVerifyFunc true (.ok adata) (.ok tdata) = .ok true ↔ sha256 tdata = sha256 adata))
  ∧ (∀ (tdata adata : Bytes),
      zipVerifyFunc true (some (.ok adata)) (.ok tdata) = .ok (sha256 tdata == sha256 adata)
      ∧ (zipVerifyFunc true (some (.ok adata)) (.ok tdata) = .ok true ↔
          sha256 tdata = sha256 adata))
  ∧ (∀ (aread target : ReadResult), tarVerifyFunc false aread target = .ok true)
  ∧ (∀ (eo : Option ReadResult) (target : ReadResult), zipVerifyFunc false eo target = .ok true) := by
  refine ⟨fun tdata adata => ⟨rfl, ?_⟩, fun tdata adata => ⟨rfl, ?_⟩, fun _ _ => rfl, fun _ _ => rfl⟩
  · simp [tarVerifyFunc]
  · simp [zipVerifyFunc]

/-- C9: any failure to open the resolved target path — non-existence or a
permission-style failure — is treated identically: the open error value
is discarded, the outcome reports non-existence with the not-found
reason, no error propagates, and the filesystem is unchanged. -/
theorem open_error_is_not_found (dryRun : Bool) (fs fsAbsent : FS) (tdir name : String)
    (vf : VerifyCallback)
    (h : fs.files.lookup (filepathJoin tdir name) = some .unopenable)
    (h2 : fsAbsent.files.lookup (filepathJoin tdir name) = none) :
    osOpen fs (filepathJoin tdir name) = .error .permission
    ∧ osOpen fsAbsent (filepathJoin tdir name) = .error .notExist
    ∧ removeFromTargetDir dryRun fs tdir name vf =
        (fs, ⟨filepathJoin tdir name, false, false, false, .fileNotFound⟩, none)
    ∧ (removeFromTargetDir dryRun fs tdir name vf).2 =
        (removeFromTargetDir dryRun fsAbsent tdir name vf).2 := by
  refine ⟨by simp [osOpen, h], by simp [osOpen, h2], ?_, ?_⟩
  · simp [removeFromTargetDir, osOpen, h, Except.toOption]
  · simp [removeFromTargetDir, osOpen, h, h2, Except.toOption]

/-- C9 witness: the unopenable file of the sample filesystem is reported
exactly like a missing one. -/
theorem open_error_is_not_found_witness :
    sampleFS.files.lookup (filepathJoin "t" "h") = some .unopenable
    ∧ (FS.mk [] []).files.lookup (filepathJoin "t" "h") = none
    ∧ removeFromTargetDir false sampleFS "t" "h" (tarVerifyFunc true .ioError) =
        (sampleFS, ⟨filepathJoin "t" "h", false, false, false, .fileNotFound⟩, none) := by
  have h : sampleFS.files.lookup (filepathJoin "t" "h") = some .unopenable := by decide
  have h2 : (FS.mk [] []).files.lookup (filepathJoin "t" "h") = none := by decide
  exact ⟨h, h2,
    (open_error_is_not_found false sampleFS ⟨[], []⟩ "t" "h"
      (tarVerifyFunc true .ioError) h h2).2.2.1⟩

/-- C10: when the verification callback returns an error, the error
propagates before any delete call: the filesystem — in particular the
entry for that file — is unchanged. -/
theorem verify_error_leaves_file (dryRun : Bool) (fs : FS) (tdir name : String)
    (vf : VerifyCallback) (rr : ReadResult) (e : GoErr)
    (hopen : (osOpen fs (filepathJoin tdir name)).toOption = some rr)
    (herr : vf rr = .error e) :
    removeFromTargetDir dryRun fs tdir name vf =
      (fs, ⟨filepathJoin tdir name, true, false, false, .none⟩, some e)
    ∧ (removeFromTargetDir dryRun fs tdir name vf).1.files.lookup (filepathJoin tdir name) =
        fs.files.lookup (filepathJoin tdir name) := by
  constructor
  · simp [removeFromTargetDir, hopen, herr]
  · simp [removeFromTargetDir, hopen, herr]

/-- C10 witness: an unreadable target file under `--verify` propagates
the read error and stays on disk. -/
theorem verify_error_leaves_file_witness :
    (osOpen sampleFS (filepathJoin "t" "g")).toOption = some .ioError
    ∧ tarVerifyFunc true (.ok []) .ioError = .error .verifyRead
    ∧ removeFromTargetDir false sampleFS "t" "g" (tarVerifyFunc true (.ok [])) =
        (sampleFS, ⟨filepathJoin "t" "g", true, false, false, .none⟩, some .verifyRead) := by
  have hopen : (osOpen sampleFS (filepathJoin "t" "g")).toOption = some .ioError := by decide
  have herr : tarVerifyFunc true (.ok []) .ioError = .error .verifyRead := rfl
  exact ⟨hopen, herr,
    (verify_error_leaves_file false sampleFS "t" "g" (tarVerifyFunc true (.ok []))
      .ioError .verifyRead hopen herr).1⟩

/-- C4: a recorded directory whose recursive walk visits more than one
entry is left untouched — same filesystem, outcome reported as existing,
non-empty and not removed, no error; and conversely the sweep body only
ever changes the filesystem when the walk count is exactly 1. -/
theorem sweep_spares_nonempty :
    (∀ (dryRun : Bool) (fs : FS) (tdir d : String),
      1 < walkCount fs (filepathJoin tdir d) →
      sweepDir dryRun fs tdir d =
        (fs, ⟨filepathJoin tdir d, true, false, false, .none⟩, none))
  ∧ (∀ (dryRun : Bool) (fs : FS) (tdir d : String),
      (sweepDir dryRun fs tdir d).1 ≠ fs → walkCount fs (filepathJoin tdir d) = 1) := by
  constructor
  · intro dryRun fs tdir d h
    have hc : (walkCount fs (filepathJoin tdir d) == 1) = false := by
      simp only [beq_eq_false_iff_ne, ne_eq]
      omega
    simp [sweepDir, hc]
  · intro dryRun fs tdir d h
    by_cases hc : walkCount fs (filepathJoin tdir d) = 1
    · exact hc
    · exfalso
      apply h
      have hc2 : (walkCount fs (filepathJoin tdir d) == 1) = false := by
        simp only [beq_eq_false_iff_ne, ne_eq]
        exact hc
      simp [sweepDir, hc2]

/-- C4 witness: the sample filesystem's non-empty directory is spared. -/
theorem sweep_spares_nonempty_witness :
    1 < walkCount sampleFS (filepathJoin "t" "e")
    ∧ sweepDir false sampleFS "t" "e" =
        (sampleFS, ⟨filepathJoin "t" "e", true, false, false, .none⟩, none) := by
  have h : 1 < walkCount sampleFS (filepathJoin "t" "e") := by decide
  exact ⟨h, (sweep_spares_nonempty.1 false sampleFS "t" "e" h)⟩

/-- C7: a file entry whose resolved path is absent from the target is
recorded as a not-found skip with nothing deleted and no error, the walk
continues with the next entries, and a run over such an entry finishes
without a fatal error. -/
theorem not_found_is_soft_skip (verify dryRun removeDirs : Bool) (tdir name : String)
    (fs : FS) (aread : ReadResult) (st : PassState) (post : List ArchiveEntry)
    (h : st.fs.files.lookup (filepathJoin tdir name) = none)
    (hfs : fs.files.lookup (filepathJoin tdir name) = none) :
    removeFromTargetDir dryRun st.fs tdir name (tarVerifyFunc verify aread) =
      (st.fs, ⟨filepathJoin tdir name, false, false, false, .fileNotFound⟩, none)
    ∧ walkArchive verify dryRun tdir st (.file name aread :: post) =
        walkArchive verify dryRun tdir
          ⟨st.fs, st.directories,
           st.outcomes ++ [⟨filepathJoin tdir name, false, false, false, .fileNotFound⟩]⟩ post
    ∧ (main verify dryRun removeDirs tdir fs [.file name aread]).err = none
    ∧ (main verify dryRun removeDirs tdir fs [.file name aread]).outcomes =
        [⟨filepathJoin tdir name, false, false, false, .fileNotFound⟩] := by
  have hr : removeFromTargetDir dryRun st.fs tdir name (tarVerifyFunc verify aread) =
      (st.fs, ⟨filepathJoin tdir name, false, false, false, .fileNotFound⟩, none) := by
    simp [removeFromTargetDir, osOpen, h, Except.toOption]
  have hrfs : removeFromTargetDir dryRun fs tdir name (tarVerifyFunc verify aread) =
      (fs, ⟨filepathJoin tdir name, false, false, false, .fileNotFound⟩, none) := by
    simp [removeFromTargetDir, osOpen, hfs, Except.toOption]
  refine ⟨hr, ?_, ?_, ?_⟩
  · simp [walkArchive, tarCallback, hr]
  · simp [main, walkArchive, tarCallback, hrfs, removeEmptyDirectories, reverseStringSliceSort,
      List.insertionSort, sweepLoop]
  · simp [main, walkArchive, tarCallback, hrfs, removeEmptyDirectories, reverseStringSliceSort,
      List.insertionSort, sweepLoop]

/-- C7 witness: a missing entry on the sample filesystem is a soft
not-found skip and the run reports no error. -/
theorem not_found_is_soft_skip_witness :
    sampleFS.files.lookup (filepathJoin "t" "missing") = none
    ∧ removeFromTargetDir false sampleFS "t" "missing" (tarVerifyFunc true (.ok [])) =
        (sampleFS, ⟨filepathJoin "t" "missing", false, false, false, .fileNotFound⟩, none)
    ∧ (main true false true "t" sampleFS [.file "missing" (.ok [])]).err = none := by
  have h : sampleFS.files.lookup (filepathJoin "t" "missing") = none := by decide
  have r := not_found_is_soft_skip true false true "t" "missing" sampleFS (.ok [])
    ⟨sampleFS, [], []⟩ [] h h
  exact ⟨h, r.1, r.2.2.1⟩


theorem removeFromTargetDir_dryRun_fs (fs : FS) (tdir name : String) (vf : VerifyCallback) :
    (removeFromTargetDir true fs tdir name vf).1 = fs := by
  cases ho : (osOpen fs (filepathJoin tdir name)).toOption with
  | none => simp [removeFromTargetDir, ho]
  | some rr =>
    cases hv : vf rr with
    | error e => simp [removeFromTargetDir, ho, hv]
    | ok verified => cases verified <;> simp [removeFromTargetDir, ho, hv]

theorem walkArchive_dryRun_fs (verify : Bool) (tdir : String) :
    ∀ (entries : List ArchiveEntry) (st : PassState),
      (walkArchive verify true tdir st entries).1.fs = st.fs := by
  intro entries
  induction entries with
  | nil => intro st; rfl
  | cons e es ih =>
    intro st
    cases e with
    | dir d => simpa [walkArchive, tarCallback] using ih _
    | file name aread =>
      rcases hr : removeFromTargetDir true st.fs tdir name (tarVerifyFunc verify aread)
        with ⟨fs', out, err⟩
      have hfs : fs' = st.fs := by
        have h2 := removeFromTargetDir_dryRun_fs st.fs tdir name (tarVerifyFunc verify aread)
        rw [hr] at h2
        exact h2
      cases err with
      | none =>
        simp only [walkArchive, tarCallback, hr]
        rw [ih]
        exact hfs
      | some e =>
        simp only [walkArchive, tarCallback, hr]
        exact hfs

theorem sweepDir_dryRun_fs (fs : FS) (tdir d : String) :
    (sweepDir true fs tdir d).1 = fs := by
  by_cases hc : (walkCount fs (filepathJoin tdir d) == 1) = true
  · simp [sweepDir, hc]
  · simp [sweepDir, hc]

theorem sweepLoop_dryRun_fs (tdir : String) :
    ∀ (ds : List String) (fs : FS), (sweepLoop true tdir fs ds).1 = fs := by
  intro ds
  induction ds with
  | nil => intro fs; rfl
  | cons d ds ih =>
    intro fs
    rcases hr : sweepDir true fs tdir d with ⟨fs', out, err⟩
    have hfs : fs' = fs := by
      have h2 := sweepDir_dryRun_fs fs tdir d
      rw [hr] at h2
      exact h2
    cases err with
    | none =>
      simp only [sweepLoop, hr]
      rw [ih]
      exact hfs
    | some e =>
      simp only [sweepLoop, hr]
      exact hfs

/-- C3: with `--dry-run` no filesystem mutation occurs anywhere — the
archive pass leaves the filesystem exactly as it was, so does the
directory sweep loop, and so does the whole run — while the per-file
outcomes are still computed as in the pass. -/
theorem dry_run_never_mutates (verify removeDirs : Bool) (tdir : String) (fs : FS)
    (entries : List ArchiveEntry) (st : PassState) (ds : List String) :
    (walkArchive verify true tdir st entries).1.fs = st.fs
    ∧ (sweepLoop true tdir fs ds).1 = fs
    ∧ (main verify true removeDirs tdir fs entries).fs = fs
    ∧ (main verify true removeDirs tdir fs entries).outcomes =
        (walkArchive verify true tdir ⟨fs, [], []⟩ entries).1.outcomes := by
  refine ⟨walkArchive_dryRun_fs verify tdir entries st, sweepLoop_dryRun_fs tdir ds fs, ?_, ?_⟩
  · unfold main
    rcases hw : walkArchive verify true tdir ⟨fs, [], []⟩ entries with ⟨st', err⟩
    have hfs : st'.fs = fs := by
      have h2 := walkArchive_dryRun_fs verify tdir entries ⟨fs, [], []⟩
      rw [hw] at h2
      exact h2
    cases err with
    | some e => simpa using hfs
    | none =>
      cases removeDirs with
      | false => simpa using hfs
      | true =>
        have hs := sweepLoop_dryRun_fs tdir (reverseStringSliceSort st'.directories) st'.fs
        rw [hfs] at hs
        simp [removeEmptyDirectories, hfs, hs]
  · unfold main
    rcases hw : walkArchive verify true tdir ⟨fs, [], []⟩ entries with ⟨st', err⟩
    cases err with
    | some e => simp
    | none =>
      cases removeDirs with
      | false => simp
      | true => simp [removeEmptyDirectories]



theorem removeFromTargetDir_dirs (dryRun : Bool) (fs : FS) (tdir name : String)
    (vf : VerifyCallback) :
    (removeFromTargetDir dryRun fs tdir name vf).1.dirs = fs.dirs := by
  cases ho : (osOpen fs (filepathJoin tdir name)).toOption with
  | none => simp [removeFromTargetDir, ho]
  | some rr =>
    cases hv : vf rr with
    | error e => simp [removeFromTargetDir, ho, hv]
    | ok verified =>
      cases verified with
      | false => simp [removeFromTargetDir, ho, hv]
      | true =>
        cases dryRun with
        | true => simp [removeFromTargetDir, ho, hv]
        | false =>
          have hsome := osOpen_some_lookup fs (filepathJoin tdir name) rr ho
          have hrm := osRemove_of_lookup_isSome fs (filepathJoin tdir name) hsome
          simp [removeFromTargetDir, ho, hv, hrm]

theorem walkArchive_preserves_dirs (verify dryRun : Bool) (tdir : String) :
    ∀ (entries : List ArchiveEntry) (st : PassState),
      (walkArchive verify dryRun tdir st entries).1.fs.dirs = st.fs.dirs := by
  intro entries
  induction entries with
  | nil => intro st; rfl
  | cons e es ih =>
    intro st
    cases e with
    | dir d => simpa [walkArchive, tarCallback] using ih _
    | file name aread =>
      rcases hr : removeFromTargetDir dryRun st.fs tdir name (tarVerifyFunc verify aread)
        with ⟨fs', out, err⟩
      have hdirs : fs'.dirs = st.fs.dirs := by
        have h2 := removeFromTargetDir_dirs dryRun st.fs tdir name (tarVerifyFunc verify aread)
        rw [hr] at h2
        exact h2
      cases err with
      | none =>
        simp only [walkArchive, tarCallback, hr]
        rw [ih]
        exact hdirs
      | some e =>
        simp only [walkArchive, tarCallback, hr]
        exact hdirs

/-- C5: during the pass a directory entry is only recorded — the
filesystem is untouched; the pass never removes a directory; without
`--remove-dirs` no directory outcome is produced and the run's final
filesystem is the pass's; with `--remove-dirs` and an error-free pass the
run is exactly the sweep applied once to the state left by the complete
pass, so every file decision precedes every directory-removal attempt. -/
theorem pass_completes_before_sweep (verify dryRun : Bool) (tdir : String) (fs : FS)
    (st : PassState) (d : String) (entries : List ArchiveEntry) :
    tarCallback verify dryRun tdir st (.dir d) =
      (⟨st.fs, st.directories ++ [d], st.outcomes⟩, none)
    ∧ (walkArchive verify dryRun tdir st entries).1.fs.dirs = st.fs.dirs
    ∧ (main verify dryRun false tdir fs entries).dirOutcomes = []
    ∧ (main verify dryRun false tdir fs entries).fs =
        (walkArchive verify dryRun tdir ⟨fs, [], []⟩ entries).1.fs
    ∧ ((walkArchive verify dryRun tdir ⟨fs, [], []⟩ entries).2 = none →
        main verify dryRun true tdir fs entries =
          ⟨(removeEmptyDirectories dryRun tdir
              (walkArchive verify dryRun tdir ⟨fs, [], []⟩ entries).1.fs
              (walkArchive verify dryRun tdir ⟨fs, [], []⟩ entries).1.directories).1,
           (walkArchive verify dryRun tdir ⟨fs, [], []⟩ entries).1.outcomes,
           (removeEmptyDirectories dryRun tdir
              (walkArchive verify dryRun tdir ⟨fs, [], []⟩ entries).1.fs
              (walkArchive verify dryRun tdir ⟨fs, [], []⟩ entries).1.directories).2.1,
           (removeEmptyDirectories dryRun tdir
              (walkArchive verify dryRun tdir ⟨fs, [], []⟩ entries).1.fs
              (walkArchive verify dryRun tdir ⟨fs, [], []⟩ entries).1.directories).2.2⟩) := by
  refine ⟨rfl, walkArchive_preserves_dirs verify dryRun tdir entries st, ?_, ?_, ?_⟩
  · unfold main
    rcases hw : walkArchive verify dryRun tdir ⟨fs, [], []⟩ entries with ⟨st', err⟩
    cases err <;> simp
  · unfold main
    rcases hw : walkArchive verify dryRun tdir ⟨fs, [], []⟩ entries with ⟨st', err⟩
    cases err <;> simp
  · intro hnone
    unfold main
    rcases hw : walkArchive verify dryRun tdir ⟨fs, [], []⟩ entries with ⟨st', err⟩
    rw [hw] at hnone
    cases err with
    | some e => simp at hnone
    | none => simp


/-- C5 witness: a concrete two-entry archive (one directory, one file)
runs the pass error-free and the final result is the sweep applied to the
state after the whole pass. -/
theorem pass_completes_before_sweep_witness :
    (walkArchive false false "t" ⟨sampleFS, [], []⟩ [.dir "d", .file "f" (.ok [1])]).2 = none
    ∧ main false false true "t" sampleFS [.dir "d", .file "f" (.ok [1])] =
        ⟨(removeEmptyDirectories false "t"
            (walkArchive false false "t" ⟨sampleFS, [], []⟩ [.dir "d", .file "f" (.ok [1])]).1.fs
            (walkArchive false false "t" ⟨sampleFS, [], []⟩
              [.dir "d", .file "f" (.ok [1])]).1.directories).1,
         (walkArchive false false "t" ⟨sampleFS, [], []⟩ [.dir "d", .file "f" (.ok [1])]).1.outcomes,
         (removeEmptyDirectories false "t"
            (walkArchive false false "t" ⟨sampleFS, [], []⟩ [.dir "d", .file "f" (.ok [1])]).1.fs
            (walkArchive false false "t" ⟨sampleFS, [], []⟩
              [.dir "d", .file "f" (.ok [1])]).1.directories).2.1,
         (removeEmptyDirectories false "t"
            (walkArchive false false "t" ⟨sampleFS, [], []⟩ [.dir "d", .file "f" (.ok [1])]).1.fs
            (walkArchive false false "t" ⟨sampleFS, [], []⟩
              [.dir "d", .file "f" (.ok [1])]).1.directories).2.2⟩ := by
  have h : (walkArchive false false "t" ⟨sampleFS, [], []⟩
      [.dir "d", .file "f" (.ok [1])]).2 = none := by decide
  exact ⟨h, (pass_completes_before_sweep false false "t" sampleFS ⟨sampleFS, [], []⟩ "d"
    [.dir "d", .file "f" (.ok [1])]).2.2.2.2 h⟩

/-- C6: a per-entry error (and a verification read error in particular)
aborts the walk at that entry — later entries are never processed — and
propagates to the run's result, skipping the sweep; reading errors from
either stream under `--verify` are such errors, whereas a digest mismatch
only records a verification-failure outcome and the walk continues with
the remaining entries. -/
theorem verify_read_error_fatal_mismatch_soft :
    (∀ (verify dryRun : Bool) (tdir : String) (st : PassState) (e : ArchiveEntry)
       (post : List ArchiveEntry) (err : GoErr),
      (tarCallback verify dryRun tdir st e).2 = some err →
      walkArchive verify dryRun tdir st (e :: post) = ((tarCallback verify dryRun tdir st e).1, some err))
  ∧ (∀ (verify dryRun removeDirs : Bool) (tdir : String) (fs : FS) (e : ArchiveEntry)
       (post : List ArchiveEntry) (err : GoErr),
      (tarCallback verify dryRun tdir ⟨fs, [], []⟩ e).2 = some err →
      (main verify dryRun removeDirs tdir fs (e :: post)).err = some err
      ∧ (main verify dryRun removeDirs tdir fs (e :: post)).dirOutcomes = [])
  ∧ (∀ (aread : ReadResult) (tdata : Bytes),
      tarVerifyFunc true aread .ioError = .error .verifyRead
      ∧ tarVerifyFunc true .ioError (.ok tdata) = .error .verifyRead)
  ∧ (∀ (dryRun : Bool) (tdir name : String) (st : PassState) (tdata adata : Bytes)
       (post : List ArchiveEntry),
      (osOpen st.fs (filepathJoin tdir name)).toOption = some (.ok tdata) →
      sha256 tdata ≠ sha256 adata →
      tarCallback true dryRun tdir st (.file name (.ok adata)) =
        (⟨st.fs, st.directories,
          st.outcomes ++ [⟨filepathJoin tdir name, true, false, false, .verificationFailure⟩]⟩, none)
      ∧ walkArchive true dryRun tdir st (.file name (.ok adata) :: post) =
          walkArchive true dryRun tdir
            ⟨st.fs, st.directories,
             st.outcomes ++ [⟨filepathJoin tdir name, true, false, false, .verificationFailure⟩]⟩
            post) := by
  have hstep : ∀ (verify dryRun : Bool) (tdir : String) (st : PassState) (e : ArchiveEntry)
      (post : List ArchiveEntry) (err : GoErr),
      (tarCallback verify dryRun tdir st e).2 = some err →
      walkArchive verify dryRun tdir st (e :: post) =
        ((tarCallback verify dryRun tdir st e).1, some err) := by
    intro verify dryRun tdir st e post err h
    rcases hc : tarCallback verify dryRun tdir st e with ⟨st', err'⟩
    rw [hc] at h
    simp only at h
    subst h
    simp [walkArchive, hc]
  refine ⟨hstep, ?_, fun aread tdata => ⟨by cases aread <;> rfl, rfl⟩, ?_⟩
  · intro verify dryRun removeDirs tdir fs e post err h
    unfold main
    rw [hstep verify dryRun tdir ⟨fs, [], []⟩ e post err h]
    simp
  · intro dryRun tdir name st tdata adata post hopen hne
    have hbeq : (sha256 tdata == sha256 adata) = false := by simpa using hne
    have hr : removeFromTargetDir dryRun st.fs tdir name (tarVerifyFunc true (.ok adata)) =
        (st.fs, ⟨filepathJoin tdir name, true, false, false, .verificationFailure⟩, none) := by
      simp [removeFromTargetDir, hopen, tarVerifyFunc, hbeq]
    constructor
    · simp [tarCallback, hr]
    · simp [walkArchive, tarCallback, hr]

set_option maxRecDepth 16384 in
/-- C6 witness: an unreadable target file under `--verify` aborts a
two-entry run (the second entry is not processed), while a readable file
with a mismatched digest is a recorded soft skip. -/
theorem verify_read_error_fatal_mismatch_soft_witness :
    (tarCallback true false "t" ⟨sampleFS, [], []⟩ (.file "g" (.ok []))).2 = some .verifyRead
    ∧ walkArchive true false "t" ⟨sampleFS, [], []⟩
        [.file "g" (.ok []), .file "f" (.ok [1])] =
        ((tarCallback true false "t" ⟨sampleFS, [], []⟩ (.file "g" (.ok []))).1, some .verifyRead)
    ∧ (main true false true "t" sampleFS [.file "g" (.ok []), .file "f" (.ok [1])]).err =
        some .verifyRead
    ∧ (osOpen sampleFS (filepathJoin "t" "f")).toOption = some (.ok [1])
    ∧ sha256 [1] ≠ sha256 [2]
    ∧ tarCallback true false "t" ⟨sampleFS, [], []⟩ (.file "f" (.ok [2])) =
        (⟨sampleFS, [],
          [⟨filepathJoin "t" "f", true, false, false, .verificationFailure⟩]⟩, none) := by
  have h1 : (tarCallback true false "t" ⟨sampleFS, [], []⟩ (.file "g" (.ok []))).2 =
      some .verifyRead := rfl
  have hopen : (osOpen sampleFS (filepathJoin "t" "f")).toOption = some (.ok [1]) := by decide
  have hne : sha256 [1] ≠ sha256 [2] := by decide
  refine ⟨h1, ?_, ?_, hopen, hne, ?_⟩
  · exact verify_read_error_fatal_mismatch_soft.1 true false "t" ⟨sampleFS, [], []⟩
      (.file "g" (.ok [])) [.file "f" (.ok [1])] .verifyRead h1
  · exact (verify_read_error_fatal_mismatch_soft.2.1 true false true "t" sampleFS
      (.file "g" (.ok [])) [.file "f" (.ok [1])] .verifyRead h1).1
  · have h4 := (verify_read_error_fatal_mismatch_soft.2.2.2 false "t" "f" ⟨sampleFS, [], []⟩
      [1] [2] [] hopen hne).1
    simpa using h4


theorem sweepDir_path (dryRun : Bool) (fs : FS) (tdir d : String) :
    (sweepDir dryRun fs tdir d).2.1.path = filepathJoin tdir d := by
  by_cases hc : (walkCount fs (filepathJoin tdir d) == 1) = true
  · cases dryRun with
    | true => simp [sweepDir, hc]
    | false =>
      cases hrm : osRemove fs (filepathJoin tdir d) with
      | error e => cases e <;> simp [sweepDir, hc, hrm]
      | ok fs2 => simp [sweepDir, hc, hrm]
  · simp [sweepDir, hc]

theorem sweepLoop_paths (dryRun : Bool) (tdir : String) :
    ∀ (ds : List String) (fs : FS),
      (sweepLoop dryRun tdir fs ds).2.2 = none →
      (sweepLoop dryRun tdir fs ds).2.1.map DirOutcome.path = ds.map (filepathJoin tdir) := by
  intro ds
  induction ds with
  | nil => intro fs h; rfl
  | cons d ds ih =>
    intro fs h
    rcases hr : sweepDir dryRun fs tdir d with ⟨fs', out, err⟩
    have hpath : out.path = filepathJoin tdir d := by
      have h2 := sweepDir_path dryRun fs tdir d
      rw [hr] at h2
      exact h2
    cases err with
    | some e => simp [sweepLoop, hr] at h
    | none =>
      simp only [sweepLoop, hr] at h ⊢
      simp only [List.map_cons]
      rw [ih fs' h, hpath]

/-- C8: the sweep's processing order is the recorded directory list
rearranged into descending lexicographic order of the raw path strings —
a permutation sorted by the reversed string comparison — and not true
path-depth order: the shallower string "z" is processed before the
deeper "a/b". -/
theorem sweep_processes_reverse_lex :
    (∀ l : List String, List.Perm (reverseStringSliceSort l) l)
    ∧ (∀ l : List String, (reverseStringSliceSort l).Sorted goStringGe)
    ∧ (∀ (dryRun : Bool) (tdir : String) (fs : FS) (dirs : List String),
        (removeEmptyDirectories dryRun tdir fs dirs).2.2 = none →
        (removeEmptyDirectories dryRun tdir fs dirs).2.1.map DirOutcome.path =
          (reverseStringSliceSort dirs).map (filepathJoin tdir))
    ∧ reverseStringSliceSort ["a/b", "z"] = ["z", "a/b"]
    ∧ pathDepth "z" < pathDepth "a/b" := by
  refine ⟨fun l => List.perm_insertionSort goStringGe l,
    fun l => List.sorted_insertionSort goStringGe l, ?_, by decide, by decide⟩
  intro dryRun tdir fs dirs h
  exact sweepLoop_paths dryRun tdir (reverseStringSliceSort dirs) fs h

/-- C8 witness: an error-free sweep over two recorded directories visits
them in descending lexicographic order. -/
theorem sweep_processes_reverse_lex_witness :
    (removeEmptyDirectories false "t" sampleFS ["d", "e"]).2.2 = none
    ∧ (removeEmptyDirectories false "t" sampleFS ["d", "e"]).2.1.map DirOutcome.path =
        (reverseStringSliceSort ["d", "e"]).map (filepathJoin "t") := by
  have h : (removeEmptyDirectories false "t" sampleFS ["d", "e"]).2.2 = none := by decide
  exact ⟨h, sweep_processes_reverse_lex.2.2.1 false "t" sampleFS ["d", "e"] h⟩


end ArchiveUninstall
